import Mathlib

/-!
Verification of the payment-reference lifecycle of the travel mini-app.

The development shallowly embeds the in-memory payment-reference store
(`_paymentStore.ts`) and the two HTTP handlers that drive it: the
generate-image handler (`app/api/generate-image/route.ts`, the variant with
the format gate and consume-before-generation) and the confirm-payment
handler (`app/api/confirm-payment/route.ts`).

Timestamps are integers (milliseconds, the value of `Date.now()`); each
request is modelled at a single instant, passed explicitly as `now`.
The JS `Map<string, PaymentReference>` is modelled as an association list
with JS-Map semantics: `set` on an existing key replaces the value in place,
`set` on a fresh key appends, `delete` removes, iteration order is insertion
order.
-/

namespace Travel

/-- A stored payment-intent record (interface `PaymentReference`). -/
structure PaymentReference where
  reference : String
  timestamp : Int
  used : Bool
deriving Repr, DecidableEq

/-- The in-memory store `paymentReferences : Map<string, PaymentReference>`. -/
abbrev Store := List (String × PaymentReference)

/-- Embeds `maxAge`: 10 minutes, in milliseconds. -/
def maxAge : Int := 10 * 60 * 1000

/-- Embeds `now - data.timestamp > maxAge`: the record is past its TTL. -/
def isExpired (now : Int) (d : PaymentReference) : Bool :=
  decide (now - d.timestamp > maxAge)

/-- Embeds `Map.get`: first (and in a real map, only) entry for the key. -/
def lookupRef : Store → String → Option PaymentReference
  | [], _ => none
  | e :: t, r => if e.1 == r then some e.2 else lookupRef t r

/-- Embeds `Map.set`: replace in place when the key is present, append otherwise. -/
def setRef (s : Store) (r : String) (v : PaymentReference) : Store :=
  if List.any s (fun e => e.1 == r) then
    List.map (fun e => if e.1 == r then (r, v) else e) s
  else
    s ++ [(r, v)]

/-- Embeds `Map.delete`. -/
def deleteRef (s : Store) (r : String) : Store :=
  List.filter (fun e => !(e.1 == r)) s

/-- Embeds `cleanupExpiredReferences()`: delete every record older than 10 minutes. -/
def cleanupExpiredReferences (now : Int) (s : Store) : Store :=
  List.filter (fun e => !(isExpired now e.2)) s

/-- Embeds `addPaymentReference(reference)`: store a fresh record, `used = false`,
`timestamp = Date.now()`. Overwrites any existing entry for the key. -/
def addPaymentReference (now : Int) (s : Store) (r : String) : Store :=
  setRef s r { reference := r, timestamp := now, used := false }

/-- Embeds `hasPaymentReference(reference)`: true iff a record exists, is unexpired
and unused; lazily deletes the record (and returns false) when it is found
but expired. Returns the result together with the possibly-updated store. -/
def hasPaymentReference (now : Int) (s : Store) (r : String) :
    Bool × Store :=
  match lookupRef s r with
  | none => (false, s)
  | some d =>
    if isExpired now d then (false, deleteRef s r)
    else (!d.used, s)

/-- Embeds `markPaymentReferenceUsed(reference)`: set `used = true` when the record
exists; a silent no-op otherwise. -/
def markPaymentReferenceUsed (s : Store) (r : String) : Store :=
  match lookupRef s r with
  | none => s
  | some d => setRef s r { d with used := true }

/-- Well-formedness of a store reachable from a JS `Map`: keys are unique. -/
def StoreWF (s : Store) : Prop := (List.map Prod.fst (α := String × PaymentReference) s).Nodup

/-! ### The generate-image handler

`app/api/generate-image/route.ts` (the variant with the format gate and
consume-before-generation). The request body fields are `Option String`
(`none` = field absent from the JSON); JS truthiness of a string field is
"present and nonempty". The external Gemini call is an opaque capability
that either returns an image or throws with a message. -/

/-- JS truthiness of an optional string: present and nonempty. -/
def truthy : Option String → Bool
  | none => false
  | some s => !(s == "")

/-- One character class of the regex `[a-f0-9]` under the `i` flag. -/
def isHexDigitCI (c : Char) : Bool :=
  (decide ('a' ≤ c) && decide (c ≤ 'f')) ||
  (decide ('A' ≤ c) && decide (c ≤ 'F')) ||
  (decide ('0' ≤ c) && decide (c ≤ '9'))

/-- Embeds `/^[a-f0-9]{32}$/i.test(p)`: exactly 32 case-insensitive hex characters. -/
def isHex32CI (p : String) : Bool :=
  (p.length == 32) && p.toList.all isHexDigitCI

/-- The `validLocations` allow-list of the generate-image handler. -/
def validLocations : List String :=
  ["france", "usa", "uk", "italy", "japan", "india", "australia", "brazil", "dubai"]

/-- Outcome of the opaque `generateTravelImage` call: an image data URL, or a
thrown error carrying a message. -/
inductive GenResult where
  | ok (img : String)
  | err (msg : String)
deriving Repr, DecidableEq

/-- The distinguishable responses of the generate-image handler. -/
inductive GenResponse where
  /-- HTTP 400 `Missing required parameters: imageDataUrl and location`. -/
  | missingParams
  /-- HTTP 402 `Payment required. Please complete payment before generating image.` -/
  | paymentRequired
  /-- HTTP 400 `Invalid payment reference format.` -/
  | invalidFormat
  /-- HTTP 400 `Invalid location selected`. -/
  | invalidLocation
  /-- HTTP 402 `Invalid, expired, or already used payment reference. Please complete payment again.` -/
  | invalidReference
  /-- HTTP 200 `{ success: true, imageDataUrl }`. -/
  | success (img : String)
  /-- The catch block: generation threw with the given message. -/
  | genFailure (msg : String)
deriving Repr, DecidableEq

/-- Naive substring test, the meaning of JS `hay.includes(needle)`. -/
def strContains (hay needle : String) : Bool :=
  (List.range (hay.length + 1)).any (fun i => needle.isPrefixOf (String.drop hay i))

/-- HTTP status attached to each generate-image response; the catch block
classifies the thrown message by substring as in the source. -/
def genStatus : GenResponse → Nat
  | .missingParams => 400
  | .paymentRequired => 402
  | .invalidFormat => 400
  | .invalidLocation => 400
  | .invalidReference => 402
  | .success _ => 200
  | .genFailure msg =>
    if strContains msg "Uploaded image is not of a person" then 400
    else if strContains msg "Invalid image data URL format" then 400
    else if strContains msg "GEMINI_API_KEY environment variable is not set" then 500
    else 500

/-- Embeds `POST /api/generate-image`: the whole handler body, returning the
response and the post-state of the payment-reference store. -/
def generateImagePOST (now : Int) (imageDataUrl location paymentReference : Option String)
    (gen : GenResult) (s : Store) : GenResponse × Store :=
  if !truthy imageDataUrl || !truthy location then (.missingParams, s)
  else if !truthy paymentReference then (.paymentRequired, s)
  else if !isHex32CI (paymentReference.getD "") then (.invalidFormat, s)
  else if !(validLocations.contains (location.getD "")) then (.invalidLocation, s)
  else
    let s1 := cleanupExpiredReferences now s
    let hs := hasPaymentReference now s1 (paymentReference.getD "")
    if !hs.1 then (.invalidReference, hs.2)
    else
      let s3 := markPaymentReferenceUsed hs.2 (paymentReference.getD "")
      match gen with
      | .ok img => (.success img, s3)
      | .err msg => (.genFailure msg, s3)

/-! ### The confirm-payment handler

`app/api/confirm-payment/route.ts`. The Developer Portal transaction record
is loosely shaped; every field the handler probes is optional. The network
round trip is a parameter: `Except n tx` is a non-ok HTTP answer with status
`n`, or the parsed transaction object. -/

/-- One entry of the ledger's token-movements list. -/
structure TokenMovement where
  symbol : Option String
  token_amount : Option String
deriving Repr, DecidableEq

/-- The ledger's loosely-shaped transaction record. `toAddr` embeds the
JSON field `to`. `tokens` is `none` when the field is absent or not an
array. -/
structure Tx where
  reference : Option String
  status : Option String
  recipient : Option String
  toAddr : Option String
  amount : Option String
  token_amount : Option String
  token : Option String
  symbol : Option String
  tokens : Option (List TokenMovement)
deriving Repr, DecidableEq

/-- Environment configuration read by the confirm handler. -/
structure ConfirmEnv where
  /-- Env var `NEXT_PUBLIC_PAYMENT_RECIPIENT_ADDRESS`. -/
  recipient : Option String
  /-- Env var `NEXT_PUBLIC_WLD_APP_ID`. -/
  appId : Option String
  /-- Env var `DEV_PORTAL_API_KEY`. -/
  apiKey : Option String
deriving Repr, DecidableEq

/-- ASCII lowering of one character, the effect of JS `toLowerCase` on the
addresses involved here. -/
def asciiLowerChar (c : Char) : Char :=
  if 'A' ≤ c ∧ c ≤ 'Z' then Char.ofNat (c.toNat + 32) else c

/-- JS `s.toLowerCase()` (ASCII). -/
def jsToLower (s : String) : String := String.mk (s.data.map asciiLowerChar)

/-- JS `a || b` on optional strings: `b` unless `a` is present and nonempty. -/
def jsOr (a b : Option String) : Option String :=
  match a with
  | some x => if x == "" then b else some x
  | none => b

/-- JS `array.filter(Boolean)`: drop absent and empty entries. -/
def filterTruthy (l : List (Option String)) : List String :=
  (l.filterMap id).filter (fun x => !(x == ""))

/-- Embeds `tokensArray.length > 0 ? tokensArray[0] : undefined`. -/
def primaryToken (tx : Tx) : Option TokenMovement :=
  match tx.tokens with
  | some (t :: _) => some t
  | _ => none

/-- Embeds `tokenToDecimals(0.5, Tokens.WLD).toString()`: WLD has 18 decimals, so
half a token is `10^18 / 2` base units rendered in decimal. -/
def acceptedWLDAmount : String := toString ((10 : Nat) ^ 18 / 2)

/-- The `ACCEPTED` allow-list: the sole term is 0.5 WLD. -/
def ACCEPTED : List (String × String) := [("WLD", acceptedWLDAmount)]

/-- Embeds `referenceOk = tx?.reference === payload.reference`. -/
def referenceOk (tx : Tx) (ref : String) : Bool := tx.reference == some ref

/-- Embeds `statusOk = tx?.status !== "failed"`. -/
def statusOk (tx : Tx) : Bool := !(tx.status == some "failed")

/-- Embeds `(tx?.recipient || tx?.to)?.toLowerCase?.()`. -/
def lowerRecipient (tx : Tx) : Option String :=
  (jsOr tx.recipient tx.toAddr).map jsToLower

/-- Embeds `recipientOk = lowerRecipient ? lowerRecipient === EXPECTED_RECIPIENT : true`. -/
def recipientOk (tx : Tx) (expected : String) : Bool :=
  match lowerRecipient tx with
  | none => true
  | some x => if x == "" then true else x == expected

/-- Embeds `amountCandidates = [tx?.amount, tx?.token_amount, primaryToken?.token_amount].filter(Boolean)`. -/
def amountCandidates (tx : Tx) : List String :=
  filterTruthy [tx.amount, tx.token_amount, (primaryToken tx).bind TokenMovement.token_amount]

/-- Embeds `tokenSymbolCandidates = [tx?.token, tx?.symbol, primaryToken?.symbol].filter(Boolean)`. -/
def tokenSymbolCandidates (tx : Tx) : List String :=
  filterTruthy [tx.token, tx.symbol, (primaryToken tx).bind TokenMovement.symbol]

/-- The `for (const opt of ACCEPTED)` loop with its break: does any accepted
term have its symbol among the symbol candidates and its amount among the
amount candidates? -/
def anyAcceptedMatch : List (String × String) → List String → List String → Bool
  | [], _, _ => false
  | opt :: rest, syms, amts =>
    if syms.contains opt.1 && amts.contains opt.2 then true
    else anyAcceptedMatch rest syms amts

/-- The value the `let tokenOk`/`let amountOk` loop leaves in both variables:
vacuously true unless both candidate lists are nonempty, in which case an
accepted term must match. -/
def tokenAmountOk (tx : Tx) : Bool :=
  if (tokenSymbolCandidates tx).length > 0 && (amountCandidates tx).length > 0 then
    anyAcceptedMatch ACCEPTED (tokenSymbolCandidates tx) (amountCandidates tx)
  else true

/-- Embeds `tokenOk` after the loop (the loop always sets it together with
`amountOk`). -/
def tokenOk (tx : Tx) : Bool := tokenAmountOk tx

/-- Embeds `amountOk` after the loop. -/
def amountOk (tx : Tx) : Bool := tokenAmountOk tx

/-- The list of failure tags, in source order, kept exactly when the
corresponding sub-check failed. -/
def failedTags (refOk stOk recOk tokOk amtOk : Bool) : List String :=
  (if !refOk then ["reference_mismatch"] else []) ++
  (if !stOk then ["invalid_status"] else []) ++
  (if !recOk then ["recipient_mismatch"] else []) ++
  (if !tokOk then ["token_mismatch"] else []) ++
  (if !amtOk then ["amount_mismatch"] else [])

/-- The distinguishable responses of the confirm-payment handler. -/
inductive ConfirmResponse where
  /-- HTTP 400 `Unknown or expired reference`. -/
  | unknownReference
  /-- HTTP 500 `Server configuration error` (missing recipient address). -/
  | serverConfigError
  /-- HTTP 500 `Missing APP_ID or DEV_PORTAL_API_KEY`. -/
  | missingAppConfig
  /-- HTTP 502 `Portal query failed: <status>`. -/
  | portalFailed (upstream : Nat)
  /-- HTTP 200 `{ success: true }`, `pay_ref` cookie cleared. -/
  | ok
  /-- HTTP 400 `Validation failed: <comma-joined tags>`. -/
  | validationFailed (error : String)
deriving Repr, DecidableEq

/-- HTTP status of each confirm-payment response. -/
def confirmStatus : ConfirmResponse → Nat
  | .unknownReference => 400
  | .serverConfigError => 500
  | .missingAppConfig => 500
  | .portalFailed _ => 502
  | .ok => 200
  | .validationFailed _ => 400

/-- The verification stage of the confirm handler, entered once reference
admission has passed: environment checks, the ledger round trip, and the five
sub-checks with their aggregated verdict. -/
def confirmVerify (payloadRef : String) (env : ConfirmEnv)
    (ledger : Except Nat Tx) : ConfirmResponse :=
  let expectedRecipient := Option.map jsToLower env.recipient
  if !truthy expectedRecipient then .serverConfigError
  else if !truthy env.appId || !truthy env.apiKey then .missingAppConfig
  else
    match ledger with
    | .error upstream => .portalFailed upstream
    | .ok tx =>
      let refOk := referenceOk tx payloadRef
      let stOk := statusOk tx
      let recOk := recipientOk tx (expectedRecipient.getD "")
      let tokOk := tokenOk tx
      let amtOk := amountOk tx
      if refOk && stOk && recOk && tokOk && amtOk then .ok
      else
        .validationFailed
          ("Validation failed: " ++
            String.intercalate ", " (failedTags refOk stOk recOk tokOk amtOk))

/-- Embeds `POST /api/confirm-payment`: the whole handler body. `payloadRef` is
`payload?.reference`, `cookie` the `pay_ref` cookie, `ledger` the Developer
Portal round trip for `payload.transaction_id`. Returns the response and the
post-state of the store. -/
def confirmPOST (now : Int) (payloadRef cookie : Option String) (env : ConfirmEnv)
    (ledger : Except Nat Tx) (s : Store) : ConfirmResponse × Store :=
  let s1 := cleanupExpiredReferences now s
  let hs :=
    if truthy payloadRef then hasPaymentReference now s1 (payloadRef.getD "")
    else (false, s1)
  let referenceMatchesCookie := truthy payloadRef && (cookie == payloadRef)
  if !truthy payloadRef || (!hs.1 && !referenceMatchesCookie) then
    (.unknownReference, hs.2)
  else (confirmVerify (payloadRef.getD "") env ledger, hs.2)

/-! ### Store lemmas -/

theorem lookupRef_mem {s : Store} {r : String} {d : PaymentReference}
    (h : lookupRef s r = some d) : (r, d) ∈ s := by
  induction s with
  | nil => cases h
  | cons e t ih =>
    rw [lookupRef] at h
    by_cases hk : (e.1 == r) = true
    · rw [if_pos hk] at h
      have h1 : e.1 = r := eq_of_beq hk
      have h2 : e.2 = d := by cases h; rfl
      have : e = (r, d) := by cases e; simp_all
      rw [← this]; exact List.mem_cons_self e t
    · rw [if_neg hk] at h
      exact List.mem_cons_of_mem e (ih h)

theorem not_mem_of_lookupRef_none {s : Store} {r : String}
    (h : lookupRef s r = none) (d : PaymentReference) : (r, d) ∉ s := by
  induction s with
  | nil => simp
  | cons e t ih =>
    rw [lookupRef] at h
    by_cases hk : (e.1 == r) = true
    · rw [if_pos hk] at h; cases h
    · rw [if_neg hk] at h
      intro hmem
      rcases List.mem_cons.mp hmem with rfl | hmem
      · simp at hk
      · exact ih h hmem

theorem mem_setRef {s : Store} {r' : String} {v : PaymentReference}
    {x : String × PaymentReference} (h : x ∈ setRef s r' v) :
    x = (r', v) ∨ x ∈ s := by
  unfold setRef at h
  by_cases hany : List.any s (fun e => e.1 == r') = true
  · rw [if_pos hany] at h
    rcases List.mem_map.mp h with ⟨e, he, hfe⟩
    by_cases hk : (e.1 == r') = true
    · left; rw [if_pos hk] at hfe; exact hfe.symm
    · right; rw [if_neg hk] at hfe; rwa [hfe] at he
  · rw [if_neg hany] at h
    rcases List.mem_append.mp h with h | h
    · right; exact h
    · left; simpa using h

theorem mem_setRef_self_key {s : Store} {r : String} {v rec : PaymentReference}
    (h : (r, rec) ∈ setRef s r v) : rec = v := by
  unfold setRef at h
  by_cases hany : List.any s (fun e => e.1 == r) = true
  · rw [if_pos hany] at h
    rcases List.mem_map.mp h with ⟨e, _, hfe⟩
    by_cases hk : (e.1 == r) = true
    · rw [if_pos hk] at hfe; cases hfe; rfl
    · rw [if_neg hk] at hfe
      have he1 : e.1 = r := by rw [hfe]
      simp [he1] at hk
  · rw [if_neg hany] at h
    rcases List.mem_append.mp h with h | h
    · exfalso
      have : List.any s (fun e => e.1 == r) = true :=
        List.any_eq_true.mpr ⟨(r, rec), h, by simp⟩
      exact hany this
    · cases List.mem_singleton.mp h; rfl

theorem lookupRef_map_replace (t : Store) (r : String) (v : PaymentReference)
    (h : List.any t (fun e => e.1 == r) = true) :
    lookupRef (List.map (fun e => if e.1 == r then (r, v) else e) t) r = some v := by
  induction t with
  | nil => simp at h
  | cons e tl ih =>
    rw [List.map_cons]
    by_cases hk : (e.1 == r) = true
    · rw [if_pos hk, lookupRef]
      rw [if_pos (by simp)]
    · rw [if_neg hk, lookupRef, if_neg hk]
      apply ih
      rcases List.any_eq_true.mp h with ⟨a, ha, hpa⟩
      rcases List.mem_cons.mp ha with rfl | ha
      · exact absurd hpa hk
      · exact List.any_eq_true.mpr ⟨a, ha, hpa⟩

theorem lookupRef_append_single (t : Store) (r : String) (v : PaymentReference)
    (h : lookupRef t r = none) : lookupRef (t ++ [(r, v)]) r = some v := by
  induction t with
  | nil => simp [lookupRef]
  | cons e tl ih =>
    rw [lookupRef] at h
    by_cases hk : (e.1 == r) = true
    · rw [if_pos hk] at h; cases h
    · rw [if_neg hk] at h
      rw [List.cons_append, lookupRef, if_neg hk]
      exact ih h

theorem lookupRef_eq_none_of_not_any (t : Store) (r : String)
    (h : ¬ List.any t (fun e => e.1 == r) = true) : lookupRef t r = none := by
  induction t with
  | nil => rfl
  | cons e tl ih =>
    by_cases hk : (e.1 == r) = true
    · exact absurd (List.any_eq_true.mpr ⟨e, List.mem_cons_self e tl, hk⟩) h
    · rw [lookupRef, if_neg hk]
      apply ih
      intro hc
      rcases List.any_eq_true.mp hc with ⟨a, ha, hpa⟩
      exact h (List.any_eq_true.mpr ⟨a, List.mem_cons_of_mem e ha, hpa⟩)

theorem lookupRef_setRef_self (s : Store) (r : String) (v : PaymentReference) :
    lookupRef (setRef s r v) r = some v := by
  unfold setRef
  by_cases hany : List.any s (fun e => e.1 == r) = true
  · rw [if_pos hany]
    exact lookupRef_map_replace s r v hany
  · rw [if_neg hany]
    exact lookupRef_append_single s r v (lookupRef_eq_none_of_not_any s r hany)

theorem lookupRef_setRef_ne (s : Store) {r' r : String} (v : PaymentReference)
    (hne : r' ≠ r) : lookupRef (setRef s r' v) r = lookupRef s r := by
  have h3 : ((r' : String) == r) = false := beq_eq_false_iff_ne.mpr hne
  unfold setRef
  by_cases hany : List.any s (fun e => e.1 == r') = true
  · rw [if_pos hany]
    clear hany
    induction s with
    | nil => rfl
    | cons e t ih =>
      rw [List.map_cons]
      by_cases hk : (e.1 == r') = true
      · have h1 : e.1 = r' := eq_of_beq hk
        have h2 : (e.1 == r) = false := by
          rw [h1]; exact h3
        rw [if_pos hk]
        simp only [lookupRef]
        rw [if_neg (by simp [h3]), if_neg (by simp [h2])]
        exact ih
      · rw [if_neg hk]
        simp only [lookupRef]
        by_cases hr : (e.1 == r) = true
        · rw [if_pos hr, if_pos hr]
        · rw [if_neg hr, if_neg hr]
          exact ih
  · rw [if_neg hany]
    clear hany
    induction s with
    | nil => simp [lookupRef, h3]
    | cons e t ih =>
      rw [List.cons_append]
      simp only [lookupRef]
      by_cases hr : (e.1 == r) = true
      · rw [if_pos hr, if_pos hr]
      · rw [if_neg hr, if_neg hr]
        exact ih

theorem lookupRef_deleteRef_self (s : Store) (r : String) :
    lookupRef (deleteRef s r) r = none := by
  unfold deleteRef
  induction s with
  | nil => rfl
  | cons e t ih =>
    rw [List.filter_cons]
    by_cases hk : (e.1 == r) = true
    · rw [if_neg (by simp [hk])]
      exact ih
    · rw [if_pos (by simp [hk])]
      rw [lookupRef, if_neg hk]
      exact ih

/-! ### Cleanup and lookup interaction -/

theorem cleanup_idem (now : Int) (s : Store) :
    cleanupExpiredReferences now (cleanupExpiredReferences now s) =
      cleanupExpiredReferences now s := by
  unfold cleanupExpiredReferences
  apply List.filter_eq_self.mpr
  intro a ha
  exact (List.mem_filter.mp ha).2

theorem lookupRef_cleanup_not_expired {now : Int} {s : Store} {r : String}
    {d : PaymentReference}
    (h : lookupRef (cleanupExpiredReferences now s) r = some d) :
    isExpired now d = false := by
  have hmem : (r, d) ∈ cleanupExpiredReferences now s := lookupRef_mem h
  have := (List.mem_filter.mp hmem).2
  simpa using this

theorem hasPaymentReference_cleanup_snd (now : Int) (s : Store) (r : String) :
    (hasPaymentReference now (cleanupExpiredReferences now s) r).2 =
      cleanupExpiredReferences now s := by
  cases hl : lookupRef (cleanupExpiredReferences now s) r with
  | none => simp [hasPaymentReference, hl]
  | some d => simp [hasPaymentReference, hl, lookupRef_cleanup_not_expired hl]

theorem lookupRef_cleanup_of_unexpired {now : Int} {s : Store} {r : String}
    {rec : PaymentReference} (h : lookupRef s r = some rec)
    (hfresh : isExpired now rec = false) :
    lookupRef (cleanupExpiredReferences now s) r = some rec := by
  unfold cleanupExpiredReferences
  induction s with
  | nil => cases h
  | cons e t ih =>
    rw [lookupRef] at h
    rw [List.filter_cons]
    by_cases hk : (e.1 == r) = true
    · rw [if_pos hk] at h
      have : e.2 = rec := by cases h; rfl
      rw [if_pos (by simp [this, hfresh])]
      rw [lookupRef, if_pos hk, this]
    · rw [if_neg hk] at h
      by_cases hkeep : (!isExpired now e.2) = true
      · rw [if_pos (by simpa using hkeep)]
        rw [lookupRef, if_neg hk]
        exact ih h
      · rw [if_neg (by simpa using hkeep)]
        exact ih h

theorem lookupRef_none_of_key_not_mem {t : Store} {r : String}
    (h : r ∉ List.map Prod.fst t) : lookupRef t r = none := by
  induction t with
  | nil => rfl
  | cons e tl ih =>
    have hk : (e.1 == r) = false := by
      apply beq_eq_false_iff_ne.mpr
      intro hc
      exact h (by simp [hc.symm])
    rw [lookupRef, if_neg (by simp [hk])]
    exact ih (fun hc => h (List.mem_cons_of_mem _ hc))

theorem lookupRef_cleanup_none {now : Int} {s : Store} {r : String}
    (h : lookupRef s r = none) :
    lookupRef (cleanupExpiredReferences now s) r = none := by
  cases hl : lookupRef (cleanupExpiredReferences now s) r with
  | none => rfl
  | some d =>
    exfalso
    have hmem : (r, d) ∈ cleanupExpiredReferences now s := lookupRef_mem hl
    exact not_mem_of_lookupRef_none h d (List.mem_of_mem_filter hmem)

theorem lookupRef_cleanup_of_expired {now : Int} {s : Store} {r : String}
    {d : PaymentReference} (hwf : StoreWF s) (h : lookupRef s r = some d)
    (hexp : isExpired now d = true) :
    lookupRef (cleanupExpiredReferences now s) r = none := by
  unfold cleanupExpiredReferences
  induction s with
  | nil => cases h
  | cons e t ih =>
    have hwt : StoreWF t := (List.nodup_cons.mp hwf).2
    have hknotin : e.1 ∉ List.map Prod.fst t := by
      have := (List.nodup_cons.mp hwf).1
      simpa [StoreWF] using this
    rw [lookupRef] at h
    rw [List.filter_cons]
    by_cases hk : (e.1 == r) = true
    · have hd : e.2 = d := by rw [if_pos hk] at h; cases h; rfl
      rw [if_neg (by simp [hd, hexp])]
      apply lookupRef_none_of_key_not_mem
      intro hc
      rw [eq_of_beq hk] at hknotin
      exact hknotin (by
        rcases List.mem_map.mp hc with ⟨a, ha, hfst⟩
        exact List.mem_map.mpr ⟨a, List.mem_of_mem_filter ha, hfst⟩)
    · rw [if_neg hk] at h
      by_cases hkeep : (!isExpired now e.2) = true
      · rw [if_pos (by simpa using hkeep), lookupRef, if_neg hk]
        exact ih hwt h
      · rw [if_neg (by simpa using hkeep)]
        exact ih hwt h

/-- With unique keys, lazy-expiry lookup after a sweep at the same instant
answers exactly as it would on the unswept store. -/
theorem hasPaymentReference_cleanup_fst (now : Int) (s : Store) (r : String)
    (hwf : StoreWF s) :
    (hasPaymentReference now (cleanupExpiredReferences now s) r).1 =
      (hasPaymentReference now s r).1 := by
  cases hl : lookupRef s r with
  | none =>
    simp [hasPaymentReference, hl, lookupRef_cleanup_none hl]
  | some d =>
    by_cases hexp : isExpired now d = true
    · simp [hasPaymentReference, hl, hexp, lookupRef_cleanup_of_expired hwf hl hexp]
    · have hfresh : isExpired now d = false := Bool.of_not_eq_true hexp
      simp [hasPaymentReference, hl, hfresh, lookupRef_cleanup_of_unexpired hl hfresh]

/-! ### Dead references: the one-time-use invariant -/

/-- Every record stored under `r` (in a well-formed store, the record) is
already consumed. -/
def deadFor (r : String) (s : Store) : Prop :=
  ∀ rec : PaymentReference, (r, rec) ∈ s → rec.used = true

theorem deadFor_markUsed_self (s : Store) (r : String) :
    deadFor r (markPaymentReferenceUsed s r) := by
  unfold markPaymentReferenceUsed
  cases hl : lookupRef s r with
  | none =>
    intro rec hmem
    exact absurd hmem (not_mem_of_lookupRef_none hl rec)
  | some d =>
    intro rec hmem
    rw [mem_setRef_self_key hmem]

theorem deadFor_markUsed (s : Store) (r r' : String) (hd : deadFor r s) :
    deadFor r (markPaymentReferenceUsed s r') := by
  unfold markPaymentReferenceUsed
  cases hl : lookupRef s r' with
  | none => exact hd
  | some d =>
    intro rec hmem
    rcases mem_setRef hmem with h | h
    · cases h; rfl
    · exact hd rec h

theorem deadFor_filter (r : String) (s : Store) (p : String × PaymentReference → Bool)
    (hd : deadFor r s) : deadFor r (List.filter p s) := by
  intro rec hmem
  exact hd rec (List.mem_of_mem_filter hmem)

theorem deadFor_cleanup (now : Int) (r : String) {s : Store} (hd : deadFor r s) :
    deadFor r (cleanupExpiredReferences now s) :=
  deadFor_filter r s _ hd

theorem deadFor_has_snd (now : Int) (r r' : String) {s : Store} (hd : deadFor r s) :
    deadFor r (hasPaymentReference now s r').2 := by
  cases hl : lookupRef s r' with
  | none => simpa [hasPaymentReference, hl] using hd
  | some d =>
    by_cases hexp : isExpired now d = true
    · simp only [hasPaymentReference, hl, hexp, if_true]
      exact deadFor_filter r s _ hd
    · simpa [hasPaymentReference, hl, Bool.of_not_eq_true hexp] using hd

theorem deadFor_add_ne (now : Int) {r r' : String} {s : Store} (hne : r' ≠ r)
    (hd : deadFor r s) : deadFor r (addPaymentReference now s r') := by
  unfold addPaymentReference
  intro rec hmem
  rcases mem_setRef hmem with h | h
  · exact absurd (congrArg Prod.fst h) (by simpa using hne.symm)
  · exact hd rec h

theorem has_fst_false_of_dead (now : Int) (r : String) {s : Store}
    (hd : deadFor r s) : (hasPaymentReference now s r).1 = false := by
  cases hl : lookupRef s r with
  | none => simp [hasPaymentReference, hl]
  | some d =>
    have hused : d.used = true := hd d (lookupRef_mem hl)
    by_cases hexp : isExpired now d = true
    · simp [hasPaymentReference, hl, hexp]
    · simp [hasPaymentReference, hl, Bool.of_not_eq_true hexp, hused]

/-! ### Store effects of the handlers -/

theorem confirmPOST_store (now : Int) (p c : Option String) (env : ConfirmEnv)
    (ledger : Except Nat Tx) (s : Store) :
    (confirmPOST now p c env ledger s).2 = cleanupExpiredReferences now s := by
  unfold confirmPOST
  dsimp only
  repeat' split
  all_goals simp [hasPaymentReference_cleanup_snd]

theorem deadFor_generateImagePOST (now : Int) (img loc pref : Option String)
    (g : GenResult) (r : String) {s : Store} (hd : deadFor r s) :
    deadFor r (generateImagePOST now img loc pref g s).2 := by
  unfold generateImagePOST
  split
  · exact hd
  · split
    · exact hd
    · split
      · exact hd
      · split
        · exact hd
        · dsimp only
          have hd1 : deadFor r (cleanupExpiredReferences now s) :=
            deadFor_cleanup now r hd
          have hd2 : deadFor r
              (hasPaymentReference now (cleanupExpiredReferences now s)
                (pref.getD "")).2 := deadFor_has_snd now r _ hd1
          split
          · exact hd2
          · have hd3 := deadFor_markUsed _ r (pref.getD "") hd2
            cases g with
            | ok i => exact hd3
            | err m => exact hd3

theorem deadFor_confirmPOST (now : Int) (p c : Option String) (env : ConfirmEnv)
    (ledger : Except Nat Tx) (r : String) {s : Store} (hd : deadFor r s) :
    deadFor r (confirmPOST now p c env ledger s).2 := by
  rw [confirmPOST_store]
  exact deadFor_cleanup now r hd

/-- The generate-image handler once the input gates (parameters present,
format, location) are passed: sweep, check, consume, generate. -/
theorem generateImagePOST_gate (now : Int) (img loc : Option String) (r : String)
    (g : GenResult) (s : Store)
    (himg : truthy img = true) (hloc : truthy loc = true) (hr : r ≠ "")
    (hhex : isHex32CI r = true)
    (hlv : validLocations.contains (loc.getD "") = true) :
    generateImagePOST now img loc (some r) g s =
      (let hs := hasPaymentReference now (cleanupExpiredReferences now s) r
       if !hs.1 then (.invalidReference, hs.2)
       else
         match g with
         | .ok i => (.success i, markPaymentReferenceUsed hs.2 r)
         | .err m => (.genFailure m, markPaymentReferenceUsed hs.2 r)) := by
  have htr : truthy (some r) = true := by simp [truthy, hr]
  unfold generateImagePOST
  rw [if_neg (by simp [himg, hloc]), if_neg (by simp [htr]),
    if_neg (by simp [hhex]), if_neg (by rw [hlv]; simp)]
  rfl

/-! ### The operations that touch the payment-reference store -/

instance : DecidableEq (Except Nat Tx) := fun a b =>
  match a, b with
  | .error x, .error y =>
    if h : x = y then .isTrue (by rw [h]) else
      .isFalse (fun hc => h (by cases hc; rfl))
  | .ok x, .ok y =>
    if h : x = y then .isTrue (by rw [h]) else
      .isFalse (fun hc => h (by cases hc; rfl))
  | .error _, .ok _ => .isFalse (fun hc => Except.noConfusion hc)
  | .ok _, .error _ => .isFalse (fun hc => Except.noConfusion hc)

/-- One store-touching event: a direct store call, or a whole request of one
of the two handlers. -/
inductive StoreOp where
  | addOp (now : Int) (ref : String)
  | markUsedOp (ref : String)
  | cleanupOp (now : Int)
  | hasOp (now : Int) (ref : String)
  | genOp (now : Int) (imageDataUrl location paymentReference : Option String)
      (g : GenResult)
  | confirmOp (now : Int) (payloadRef cookie : Option String) (env : ConfirmEnv)
      (ledger : Except Nat Tx)
deriving DecidableEq

/-- The effect of one operation on the store. -/
def applyOp : StoreOp → Store → Store
  | .addOp t r, s => addPaymentReference t s r
  | .markUsedOp r, s => markPaymentReferenceUsed s r
  | .cleanupOp t, s => cleanupExpiredReferences t s
  | .hasOp t r, s => (hasPaymentReference t s r).2
  | .genOp t i l p g, s => (generateImagePOST t i l p g s).2
  | .confirmOp t p c e led, s => (confirmPOST t p c e led s).2

/-- Does this operation re-issue the reference `r`? -/
def isAddOf (r : String) : StoreOp → Bool
  | .addOp _ ref => ref == r
  | _ => false

theorem deadFor_applyOp (op : StoreOp) (r : String) {s : Store}
    (hop : isAddOf r op = false) (hd : deadFor r s) :
    deadFor r (applyOp op s) := by
  cases op with
  | addOp t ref =>
    have hne : ref ≠ r := by simpa [isAddOf] using hop
    exact deadFor_add_ne t hne hd
  | markUsedOp ref => exact deadFor_markUsed s r ref hd
  | cleanupOp t => exact deadFor_cleanup t r hd
  | hasOp t ref => exact deadFor_has_snd t r ref hd
  | genOp t i l p g => exact deadFor_generateImagePOST t i l p g r hd
  | confirmOp t p c e led => exact deadFor_confirmPOST t p c e led r hd

theorem deadFor_foldl (ops : List StoreOp) (r : String) {s : Store}
    (hops : ∀ op ∈ ops, isAddOf r op = false) (hd : deadFor r s) :
    deadFor r (List.foldl (fun st op => applyOp op st) s ops) := by
  induction ops generalizing s with
  | nil => exact hd
  | cons op t ih =>
    rw [List.foldl_cons]
    exact ih (fun o ho => hops o (List.mem_cons_of_mem op ho))
      (deadFor_applyOp op r (hops op (List.mem_cons_self op t)) hd)

/-! ### Elimination lemmas for a positive `hasPaymentReference` answer -/

theorem has_fst_true {now : Int} {s : Store} {r : String}
    (h : (hasPaymentReference now s r).1 = true) :
    ∃ d : PaymentReference,
      lookupRef s r = some d ∧ isExpired now d = false ∧ d.used = false := by
  cases hl : lookupRef s r with
  | none => simp [hasPaymentReference, hl] at h
  | some d =>
    by_cases hexp : isExpired now d = true
    · simp [hasPaymentReference, hl, hexp] at h
    · have hf := Bool.of_not_eq_true hexp
      simp [hasPaymentReference, hl, hf] at h
      exact ⟨d, rfl, hf, by simpa using h⟩

theorem has_true_eq {now : Int} {s : Store} {r : String}
    (h : (hasPaymentReference now s r).1 = true) :
    hasPaymentReference now s r = (true, s) := by
  rcases has_fst_true h with ⟨d, hl, hexp, hused⟩
  simp [hasPaymentReference, hl, hexp, hused]

/-! ### Admission gate of the confirm handler -/

theorem confirmVerify_ne_unknown (p : String) (env : ConfirmEnv)
    (ledger : Except Nat Tx) :
    confirmVerify p env ledger ≠ ConfirmResponse.unknownReference := by
  unfold confirmVerify
  dsimp only
  split
  · simp
  · split
    · simp
    · cases ledger with
      | error u => simp
      | ok tx =>
        dsimp only
        split
        · simp
        · simp

theorem confirmPOST_admitted (now : Int) (pref cookie : Option String)
    (env : ConfirmEnv) (ledger : Except Nat Tx) (s : Store)
    (htp : truthy pref = true)
    (hadm : (hasPaymentReference now (cleanupExpiredReferences now s)
        (pref.getD "")).1 = true ∨ cookie = pref) :
    confirmPOST now pref cookie env ledger s =
      (confirmVerify (pref.getD "") env ledger,
        cleanupExpiredReferences now s) := by
  have hsnd := hasPaymentReference_cleanup_snd now s (pref.getD "")
  unfold confirmPOST
  dsimp only
  rcases hadm with hmem | hcook
  · simp [htp, hmem, hsnd]
  · simp [htp, hcook, hsnd]

theorem confirmPOST_not_admitted (now : Int) (pref cookie : Option String)
    (env : ConfirmEnv) (ledger : Except Nat Tx) (s : Store)
    (h : ¬(truthy pref = true ∧
      ((hasPaymentReference now (cleanupExpiredReferences now s)
          (pref.getD "")).1 = true ∨ cookie = pref))) :
    confirmPOST now pref cookie env ledger s =
      (.unknownReference, cleanupExpiredReferences now s) := by
  have hsnd := hasPaymentReference_cleanup_snd now s (pref.getD "")
  unfold confirmPOST
  dsimp only
  by_cases htp : truthy pref = true
  · have hna := (not_and.mp h) htp
    push_neg at hna
    obtain ⟨hmem, hcook⟩ := hna
    have hmem' : (hasPaymentReference now (cleanupExpiredReferences now s)
        (pref.getD "")).1 = false := by
      cases hq : (hasPaymentReference now (cleanupExpiredReferences now s)
          (pref.getD "")).1
      · rfl
      · exact absurd hq hmem
    have hcook' : (cookie == pref) = false := beq_eq_false_iff_ne.mpr hcook
    simp [htp, hmem', hcook', hsnd]
  · have htp' : truthy pref = false := by
      cases hq : truthy pref
      · rfl
      · exact absurd hq htp
    simp [htp']

theorem confirmPOST_idem (now : Int) (pref cookie : Option String)
    (env : ConfirmEnv) (ledger : Except Nat Tx) (s : Store) :
    confirmPOST now pref cookie env ledger
        ((confirmPOST now pref cookie env ledger s).2) =
      confirmPOST now pref cookie env ledger s := by
  rw [confirmPOST_store now pref cookie env ledger s]
  show confirmPOST now pref cookie env ledger (cleanupExpiredReferences now s) =
    confirmPOST now pref cookie env ledger s
  unfold confirmPOST
  dsimp only
  rw [cleanup_idem]

/-! ## Claim theorems -/

/-- Claim **C9** (sweep idempotence): at any fixed time, running
`cleanupExpiredReferences` twice in a row leaves the store in the same state
as running it once. -/
theorem sweepIdempotent (now : Int) (s : Store) :
    cleanupExpiredReferences now (cleanupExpiredReferences now s) =
      cleanupExpiredReferences now s :=
  cleanup_idem now s

/-- Claim **C10** (re-add resurrection): `addPaymentReference` unconditionally
overwrites any existing record with a fresh `used = false`, `timestamp = now`
record, so `hasPaymentReference` answers true again right after a re-add —
even after the same id was marked used. The store offers no guard against
re-adding a consumed id. -/
theorem readdResurrection (now : Int) (s : Store) (r : String) :
    lookupRef (addPaymentReference now s r) r =
      some { reference := r, timestamp := now, used := false } ∧
    (hasPaymentReference now (addPaymentReference now s r) r).1 = true ∧
    (hasPaymentReference now
      (addPaymentReference now (markPaymentReferenceUsed s r) r) r).1 = true := by
  have hl : ∀ s' : Store, lookupRef (addPaymentReference now s' r) r =
      some { reference := r, timestamp := now, used := false } := fun s' =>
    lookupRef_setRef_self s' r _
  have hfresh :
      isExpired now { reference := r, timestamp := now, used := false } = false := by
    simp only [isExpired, maxAge, decide_eq_false_iff_not]
    omega
  refine ⟨hl s, ?_, ?_⟩
  · simp [hasPaymentReference, hl s, hfresh]
  · simp [hasPaymentReference, hl (markPaymentReferenceUsed s r), hfresh]

/-- Claim **C6** (TTL expiry): once `now - createdAt` exceeds the 10-minute TTL,
`hasPaymentReference` answers false regardless of the `used` flag, and as a
side effect the expired record is deleted from the store before false is
returned. -/
theorem ttlExpiry (now : Int) (s : Store) (r : String) (rec : PaymentReference)
    (hfind : lookupRef s r = some rec) (hexp : now - rec.timestamp > maxAge) :
    hasPaymentReference now s r = (false, deleteRef s r) ∧
    lookupRef (deleteRef s r) r = none := by
  have he : isExpired now rec = true := by
    simp only [isExpired, decide_eq_true_eq]
    exact hexp
  exact ⟨by simp [hasPaymentReference, hfind, he], lookupRef_deleteRef_self s r⟩

/-- Witness for C6: a record created at time 0 is dead at `now = 600001` ms
(one millisecond past the TTL), whether `used` is set or not. -/
theorem ttlExpiry_witness :
    hasPaymentReference 600001 [("ref1", ⟨"ref1", 0, false⟩)] "ref1" =
      (false, deleteRef [("ref1", ⟨"ref1", 0, false⟩)] "ref1") ∧
    lookupRef (deleteRef [("ref1", ⟨"ref1", 0, false⟩)] "ref1") "ref1" = none :=
  ttlExpiry 600001 [("ref1", ⟨"ref1", 0, false⟩)] "ref1" ⟨"ref1", 0, false⟩
    (by decide) (by decide)

/-- The spec's id shape, stated from the spec's words for comparison with the
code's gate: exactly 32 characters, each a lowercase hex digit. -/
def specLowerHex32 (p : String) : Bool :=
  (p.length == 32) && p.toList.all (fun c =>
    (decide ('a' ≤ c) && decide (c ≤ 'f')) ||
    (decide ('0' ≤ c) && decide (c ≤ '9')))

/-- Claim **C7 counterexample**: a 32-character uppercase hex reference does not
match the 32-lowercase-hex shape, yet the handler does not reject it with the
format error — it passes the format gate (the regex carries the `i` flag) and
reaches the store check, failing there with the 402 response instead. -/
theorem formatGateLowercase_counterexample :
    specLowerHex32 "FFFFFFFFFFFFFFFFFFFFFFFFFFFFFFFF" = false ∧
    (generateImagePOST 0 (some "selfie") (some "france")
        (some "FFFFFFFFFFFFFFFFFFFFFFFFFFFFFFFF") (.err "boom") []).1 =
      GenResponse.invalidReference ∧
    GenResponse.invalidReference ≠ GenResponse.invalidFormat := by
  refine ⟨by decide, by decide, by decide⟩

/-- Claim **C7 amended**: the generate-image handler rejects every present, nonempty
`paymentReference` that fails the case-insensitive 32-hex-character test with
the `Invalid payment reference format.` error (400), before any store lookup
or mutation, leaving the store unchanged. -/
theorem formatGateCaseInsensitive (now : Int) (img loc : Option String)
    (r : String) (g : GenResult) (s : Store)
    (himg : truthy img = true) (hloc : truthy loc = true) (hr : r ≠ "")
    (hnothex : isHex32CI r = false) :
    generateImagePOST now img loc (some r) g s = (.invalidFormat, s) ∧
    genStatus .invalidFormat = 400 := by
  have htr : truthy (some r) = true := by simp [truthy, hr]
  refine ⟨?_, rfl⟩
  unfold generateImagePOST
  rw [if_neg (by simp [himg, hloc]), if_neg (by simp [htr]),
    if_pos (by simp [hnothex])]

/-- Witness for the amended C7: `"not-hex"` is rejected with the format error
even though the location is bogus and the store holds an unrelated live
record — the gate fires before the location check and before the store is
read. -/
theorem formatGateCaseInsensitive_witness :
    generateImagePOST 0 (some "selfie") (some "nowhere") (some "not-hex")
        (.ok "img") [("other", ⟨"other", 0, false⟩)] =
      (.invalidFormat, [("other", ⟨"other", 0, false⟩)]) ∧
    genStatus .invalidFormat = 400 :=
  formatGateCaseInsensitive 0 (some "selfie") (some "nowhere") "not-hex"
    (.ok "img") [("other", ⟨"other", 0, false⟩)]
    (by decide) (by decide) (by decide) (by decide)

/-- Claim **C1** (one-time use): after `markPaymentReferenceUsed r`, and after any
further sequence of store-touching operations none of which is
`addPaymentReference r`, `hasPaymentReference r` answers false, and any
generate-image request carrying `r` that reaches the store check (parameters
present, 32-hex format, valid location) fails with the 402
`Invalid, expired, or already used payment reference` response. -/
theorem oneTimeUse (s : Store) (r : String) (ops : List StoreOp)
    (hops : ∀ op ∈ ops, isAddOf r op = false) (tq tg : Int)
    (img loc : Option String) (g : GenResult)
    (himg : truthy img = true) (hloc : truthy loc = true)
    (hr : r ≠ "") (hhex : isHex32CI r = true)
    (hlv : validLocations.contains (loc.getD "") = true) :
    (hasPaymentReference tq
      (List.foldl (fun st op => applyOp op st)
        (markPaymentReferenceUsed s r) ops) r).1 = false ∧
    (generateImagePOST tg img loc (some r) g
      (List.foldl (fun st op => applyOp op st)
        (markPaymentReferenceUsed s r) ops)).1 = .invalidReference ∧
    genStatus .invalidReference = 402 := by
  have hdead : deadFor r (List.foldl (fun st op => applyOp op st)
      (markPaymentReferenceUsed s r) ops) :=
    deadFor_foldl ops r hops (deadFor_markUsed_self s r)
  refine ⟨has_fst_false_of_dead tq r hdead, ?_, rfl⟩
  rw [generateImagePOST_gate tg img loc r g _ himg hloc hr hhex hlv]
  have hf : (hasPaymentReference tg
      (cleanupExpiredReferences tg (List.foldl (fun st op => applyOp op st)
        (markPaymentReferenceUsed s r) ops)) r).1 = false :=
    has_fst_false_of_dead tg r (deadFor_cleanup tg r hdead)
  simp [hf]

/-- Witness for C1: a live record for the all-`a` reference is consumed, two
later store-touching operations (a sweep and a lazy-expiry lookup) run, and
both the direct `hasPaymentReference` check and a well-formed generate-image
request for it then fail. -/
theorem oneTimeUse_witness :
    (hasPaymentReference 7
      (List.foldl (fun st op => applyOp op st)
        (markPaymentReferenceUsed
          [("aaaaaaaaaaaaaaaaaaaaaaaaaaaaaaaa",
            ⟨"aaaaaaaaaaaaaaaaaaaaaaaaaaaaaaaa", 0, false⟩)]
          "aaaaaaaaaaaaaaaaaaaaaaaaaaaaaaaa")
        [.cleanupOp 5, .hasOp 6 "aaaaaaaaaaaaaaaaaaaaaaaaaaaaaaaa"])
      "aaaaaaaaaaaaaaaaaaaaaaaaaaaaaaaa").1 = false ∧
    (generateImagePOST 8 (some "selfie") (some "france")
      (some "aaaaaaaaaaaaaaaaaaaaaaaaaaaaaaaa") (.ok "img")
      (List.foldl (fun st op => applyOp op st)
        (markPaymentReferenceUsed
          [("aaaaaaaaaaaaaaaaaaaaaaaaaaaaaaaa",
            ⟨"aaaaaaaaaaaaaaaaaaaaaaaaaaaaaaaa", 0, false⟩)]
          "aaaaaaaaaaaaaaaaaaaaaaaaaaaaaaaa")
        [.cleanupOp 5, .hasOp 6 "aaaaaaaaaaaaaaaaaaaaaaaaaaaaaaaa"])).1
      = .invalidReference ∧
    genStatus .invalidReference = 402 :=
  oneTimeUse
    [("aaaaaaaaaaaaaaaaaaaaaaaaaaaaaaaa",
      ⟨"aaaaaaaaaaaaaaaaaaaaaaaaaaaaaaaa", 0, false⟩)]
    "aaaaaaaaaaaaaaaaaaaaaaaaaaaaaaaa"
    [.cleanupOp 5, .hasOp 6 "aaaaaaaaaaaaaaaaaaaaaaaaaaaaaaaa"]
    (by decide) 7 8 (some "selfie") (some "france") (.ok "img")
    (by decide) (by decide) (by decide) (by decide) (by decide)

/-- Claim **C2** (consume before generation): once a generate-image request passes
the store's existence/validity check, the reference record is marked
`used = true` in the post-state for **every** generation outcome — the token
is burned on attempt, whether the external generation call succeeds or
throws. -/
theorem consumeBeforeGeneration (now : Int) (img loc : Option String)
    (r : String) (s : Store) (g : GenResult)
    (himg : truthy img = true) (hloc : truthy loc = true) (hr : r ≠ "")
    (hhex : isHex32CI r = true)
    (hlv : validLocations.contains (loc.getD "") = true)
    (hhas : (hasPaymentReference now (cleanupExpiredReferences now s) r).1
      = true) :
    ∃ rec : PaymentReference,
      lookupRef (generateImagePOST now img loc (some r) g s).2 r = some rec ∧
      rec.used = true := by
  rw [generateImagePOST_gate now img loc r g s himg hloc hr hhex hlv]
  rcases has_fst_true hhas with ⟨d, hl, _, _⟩
  have heq := has_true_eq hhas
  have hmark : lookupRef
      (markPaymentReferenceUsed (cleanupExpiredReferences now s) r) r =
      some { d with used := true } := by
    unfold markPaymentReferenceUsed
    rw [hl]
    exact lookupRef_setRef_self _ r _
  refine ⟨{ d with used := true }, ?_, rfl⟩
  cases g with
  | ok i => simp [heq, hmark]
  | err m => simp [heq, hmark]

/-- Witness for C2: the generation call throws, yet the freshly-checked
record comes out of the request with `used = true`. -/
theorem consumeBeforeGeneration_witness :
    ∃ rec : PaymentReference,
      lookupRef (generateImagePOST 7 (some "selfie") (some "japan")
        (some "bbbbbbbbbbbbbbbbbbbbbbbbbbbbbbbb") (.err "model crashed")
        [("bbbbbbbbbbbbbbbbbbbbbbbbbbbbbbbb",
          ⟨"bbbbbbbbbbbbbbbbbbbbbbbbbbbbbbbb", 3, false⟩)]).2
        "bbbbbbbbbbbbbbbbbbbbbbbbbbbbbbbb" = some rec ∧
      rec.used = true :=
  consumeBeforeGeneration 7 (some "selfie") (some "japan")
    "bbbbbbbbbbbbbbbbbbbbbbbbbbbbbbbb"
    [("bbbbbbbbbbbbbbbbbbbbbbbbbbbbbbbb",
      ⟨"bbbbbbbbbbbbbbbbbbbbbbbbbbbbbbbb", 3, false⟩)]
    (.err "model crashed")
    (by decide) (by decide) (by decide) (by decide) (by decide) (by decide)

/-- Claim **C3** (confirm aggregation): a confirm request that passes reference
admission, configuration checks, and the ledger round trip succeeds iff all
five sub-checks hold; when any fails, the 400 response enumerates exactly the
failed sub-checks, comma-joined, in source order. -/
theorem confirmAggregation (now : Int) (r : String) (cookie : Option String)
    (env : ConfirmEnv) (tx : Tx) (s : Store)
    (hr : r ≠ "")
    (hadm : (hasPaymentReference now (cleanupExpiredReferences now s) r).1
        = true ∨ cookie = some r)
    (hrec : truthy (Option.map jsToLower env.recipient) = true)
    (happ : truthy env.appId = true) (hkey : truthy env.apiKey = true) :
    ((confirmPOST now (some r) cookie env (.ok tx) s).1 = .ok ↔
      (referenceOk tx r && statusOk tx &&
        recipientOk tx ((Option.map jsToLower env.recipient).getD "") &&
        tokenOk tx && amountOk tx) = true) ∧
    ((referenceOk tx r && statusOk tx &&
        recipientOk tx ((Option.map jsToLower env.recipient).getD "") &&
        tokenOk tx && amountOk tx) = false →
      (confirmPOST now (some r) cookie env (.ok tx) s).1 =
        .validationFailed ("Validation failed: " ++ String.intercalate ", "
          (failedTags (referenceOk tx r) (statusOk tx)
            (recipientOk tx ((Option.map jsToLower env.recipient).getD ""))
            (tokenOk tx) (amountOk tx))) ∧
      confirmStatus (confirmPOST now (some r) cookie env (.ok tx) s).1
        = 400) := by
  have htr : truthy (some r) = true := by simp [truthy, hr]
  have hpost := confirmPOST_admitted now (some r) cookie env (.ok tx) s htr
    (by simpa using hadm)
  rw [hpost]
  dsimp only
  unfold confirmVerify
  dsimp only
  simp only [Option.getD_some]
  rw [if_neg (by simp [hrec]), if_neg (by simp [happ, hkey])]
  by_cases hall : (referenceOk tx r && statusOk tx &&
      recipientOk tx ((Option.map jsToLower env.recipient).getD "") &&
      tokenOk tx && amountOk tx) = true
  · rw [if_pos hall]
    refine ⟨by simp [hall], fun hfalse => ?_⟩
    rw [hall] at hfalse
    cases hfalse
  · rw [if_neg hall]
    constructor
    · constructor
      · intro hcontra
        cases hcontra
      · intro h
        exact absurd h hall
    · intro _
      exact ⟨rfl, rfl⟩

/-- Witness for C3: a ledger record reporting a different reference and an
explicit `failed` status yields exactly the two matching tags. -/
theorem confirmAggregation_witness :
    ((confirmPOST 0 (some "r") (some "r")
        ⟨some "0xab", some "app", some "key"⟩
        (.ok ⟨some "x", some "failed", none, none, none, none, none, none,
          none⟩) []).1 = .ok ↔
      (referenceOk ⟨some "x", some "failed", none, none, none, none, none,
          none, none⟩ "r" &&
        statusOk ⟨some "x", some "failed", none, none, none, none, none,
          none, none⟩ &&
        recipientOk ⟨some "x", some "failed", none, none, none, none, none,
          none, none⟩
          ((Option.map jsToLower (some "0xab")).getD "") &&
        tokenOk ⟨some "x", some "failed", none, none, none, none, none,
          none, none⟩ &&
        amountOk ⟨some "x", some "failed", none, none, none, none, none,
          none, none⟩) = true) ∧
    ((referenceOk ⟨some "x", some "failed", none, none, none, none, none,
          none, none⟩ "r" &&
        statusOk ⟨some "x", some "failed", none, none, none, none, none,
          none, none⟩ &&
        recipientOk ⟨some "x", some "failed", none, none, none, none, none,
          none, none⟩
          ((Option.map jsToLower (some "0xab")).getD "") &&
        tokenOk ⟨some "x", some "failed", none, none, none, none, none,
          none, none⟩ &&
        amountOk ⟨some "x", some "failed", none, none, none, none, none,
          none, none⟩) = false →
      (confirmPOST 0 (some "r") (some "r")
        ⟨some "0xab", some "app", some "key"⟩
        (.ok ⟨some "x", some "failed", none, none, none, none, none, none,
          none⟩) []).1 =
        .validationFailed ("Validation failed: " ++ String.intercalate ", "
          (failedTags
            (referenceOk ⟨some "x", some "failed", none, none, none, none,
              none, none, none⟩ "r")
            (statusOk ⟨some "x", some "failed", none, none, none, none, none,
              none, none⟩)
            (recipientOk ⟨some "x", some "failed", none, none, none, none,
              none, none, none⟩
              ((Option.map jsToLower (some "0xab")).getD ""))
            (tokenOk ⟨some "x", some "failed", none, none, none, none, none,
              none, none⟩)
            (amountOk ⟨some "x", some "failed", none, none, none, none, none,
              none, none⟩))) ∧
      confirmStatus (confirmPOST 0 (some "r") (some "r")
        ⟨some "0xab", some "app", some "key"⟩
        (.ok ⟨some "x", some "failed", none, none, none, none, none, none,
          none⟩) []).1 = 400) :=
  confirmAggregation 0 "r" (some "r") ⟨some "0xab", some "app", some "key"⟩
    ⟨some "x", some "failed", none, none, none, none, none, none, none⟩ []
    (by decide) (Or.inr rfl) (by decide) (by decide) (by decide)

/-- Claim **C4** (reference admission is an OR): with unique store keys, a confirm
request escapes the `Unknown or expired reference` outcome iff the payload
carries a (nonempty) reference and either the store knows it or it equals the
`pay_ref` cookie; when admission fails, the response is the 400
`unknownReference` outcome and the handler's behaviour is independent of the
ledger — no ledger query is consulted. -/
theorem referenceAdmissionOr (now : Int) (pref cookie : Option String)
    (env : ConfirmEnv) (ledger : Except Nat Tx) (s : Store)
    (hwf : StoreWF s) :
    ((confirmPOST now pref cookie env ledger s).1 ≠ .unknownReference ↔
      (truthy pref = true ∧
        ((hasPaymentReference now s (pref.getD "")).1 = true ∨
          cookie = pref))) ∧
    (¬(truthy pref = true ∧
        ((hasPaymentReference now s (pref.getD "")).1 = true ∨
          cookie = pref)) →
      (confirmPOST now pref cookie env ledger s).1 = .unknownReference ∧
      confirmStatus (confirmPOST now pref cookie env ledger s).1 = 400 ∧
      ∀ ledger' : Except Nat Tx,
        confirmPOST now pref cookie env ledger' s =
          confirmPOST now pref cookie env ledger s) := by
  have hfst := hasPaymentReference_cleanup_fst now s (pref.getD "") hwf
  have hiff : (truthy pref = true ∧
      ((hasPaymentReference now (cleanupExpiredReferences now s)
        (pref.getD "")).1 = true ∨ cookie = pref)) ↔
      (truthy pref = true ∧
      ((hasPaymentReference now s (pref.getD "")).1 = true ∨
        cookie = pref)) := by
    rw [hfst]
  constructor
  · constructor
    · intro hne
      by_contra hA
      have h1 := confirmPOST_not_admitted now pref cookie env ledger s
        (fun hc => hA (hiff.mp hc))
      rw [h1] at hne
      exact hne rfl
    · intro hA
      have h1 := confirmPOST_admitted now pref cookie env ledger s hA.1
        (hiff.mpr hA).2
      rw [h1]
      exact confirmVerify_ne_unknown _ env ledger
  · intro hA
    have h1 := confirmPOST_not_admitted now pref cookie env ledger s
      (fun hc => hA (hiff.mp hc))
    refine ⟨by rw [h1], by rw [h1]; rfl, fun ledger' => ?_⟩
    have h2 := confirmPOST_not_admitted now pref cookie env ledger' s
      (fun hc => hA (hiff.mp hc))
    rw [h1, h2]

/-- Witness for C4: the store is empty but the cookie carries the same
reference, so admission passes by the cookie disjunct alone and the outcome
is not `unknownReference` (here: the server-config failure, since the
recipient variable is unset). -/
theorem referenceAdmissionOr_witness :
    ((confirmPOST 0 (some "r") (some "r") ⟨none, none, none⟩ (.error 500)
        []).1 ≠ .unknownReference ↔
      (truthy (some "r") = true ∧
        ((hasPaymentReference 0 [] ((some "r").getD "")).1 = true ∨
          some "r" = some "r"))) ∧
    (¬(truthy (some "r") = true ∧
        ((hasPaymentReference 0 [] ((some "r").getD "")).1 = true ∨
          some "r" = some "r")) →
      (confirmPOST 0 (some "r") (some "r") ⟨none, none, none⟩ (.error 500)
        []).1 = .unknownReference ∧
      confirmStatus (confirmPOST 0 (some "r") (some "r") ⟨none, none, none⟩
        (.error 500) []).1 = 400 ∧
      ∀ ledger' : Except Nat Tx,
        confirmPOST 0 (some "r") (some "r") ⟨none, none, none⟩ ledger' [] =
          confirmPOST 0 (some "r") (some "r") ⟨none, none, none⟩
            (.error 500) []) :=
  referenceAdmissionOr 0 (some "r") (some "r") ⟨none, none, none⟩
    (.error 500) [] (by simp [StoreWF])

/-! ### Token/amount extraction lemmas -/

theorem mem_filterTruthy {l : List (Option String)} {v : String}
    (hv : v ≠ "") (hm : some v ∈ l) : v ∈ filterTruthy l := by
  unfold filterTruthy
  exact List.mem_filter.mpr
    ⟨List.mem_filterMap.mpr ⟨some v, hm, rfl⟩, by simp [hv]⟩

theorem tokenAmountOk_vacuous (tx : Tx)
    (h : tokenSymbolCandidates tx = [] ∨ amountCandidates tx = []) :
    tokenAmountOk tx = true := by
  unfold tokenAmountOk
  rcases h with h | h <;> simp [h]

theorem tokenAmountOk_strict (tx : Tx) (hs : tokenSymbolCandidates tx ≠ [])
    (ha : amountCandidates tx ≠ []) :
    tokenAmountOk tx = ((tokenSymbolCandidates tx).contains "WLD" &&
      (amountCandidates tx).contains acceptedWLDAmount) := by
  unfold tokenAmountOk
  rw [if_pos (by simp [List.length_pos, hs, ha])]
  unfold ACCEPTED anyAcceptedMatch
  cases hc : ((tokenSymbolCandidates tx).contains "WLD" &&
      (amountCandidates tx).contains acceptedWLDAmount) with
  | false => simp [hc, anyAcceptedMatch]
  | true => simp [hc]

/-- Claim **C5** (token/amount checking): `tokenOk` and `amountOk` always agree;
the sole allow-listed term is WLD at `tokenToDecimals(0.5, WLD)` rendered in
decimal; both checks are vacuously true when either kind of candidate is
missing, and when both kinds exist they hold iff the allow-listed symbol and
amount-string are among the candidates — in particular a ledger answer whose
token-movement list starts with `{symbol: "WLD", token_amount:
"500000000000000000"}` passes both. -/
theorem tokenAmountChecking (tx : Tx) :
    tokenOk tx = amountOk tx ∧
    acceptedWLDAmount = "500000000000000000" ∧
    ((tokenSymbolCandidates tx = [] ∨ amountCandidates tx = []) →
      tokenOk tx = true ∧ amountOk tx = true) ∧
    (tokenSymbolCandidates tx ≠ [] → amountCandidates tx ≠ [] →
      (tokenOk tx = true ↔
        ("WLD" ∈ tokenSymbolCandidates tx ∧
          acceptedWLDAmount ∈ amountCandidates tx))) ∧
    (∀ rest : List TokenMovement,
      tx.tokens = some ((⟨some "WLD", some "500000000000000000"⟩ :
          TokenMovement) :: rest) →
      tokenOk tx = true ∧ amountOk tx = true) := by
  have hamt : acceptedWLDAmount = "500000000000000000" := by decide
  refine ⟨rfl, hamt, ?_, ?_, ?_⟩
  · intro h
    exact ⟨tokenAmountOk_vacuous tx h, tokenAmountOk_vacuous tx h⟩
  · intro hs ha
    show tokenAmountOk tx = true ↔ _
    rw [tokenAmountOk_strict tx hs ha]
    constructor
    · intro h
      have h1 := (Bool.and_eq_true _ _).mp h
      exact ⟨List.elem_iff.mp h1.1, List.elem_iff.mp h1.2⟩
    · intro h
      exact (Bool.and_eq_true _ _).mpr
        ⟨List.elem_iff.mpr h.1, List.elem_iff.mpr h.2⟩
  · intro rest htk
    have hpt : primaryToken tx =
        some ⟨some "WLD", some "500000000000000000"⟩ := by
      simp [primaryToken, htk]
    have hw : "WLD" ∈ tokenSymbolCandidates tx := by
      apply mem_filterTruthy (by decide)
      simp [hpt]
    have hm : acceptedWLDAmount ∈ amountCandidates tx := by
      rw [hamt]
      apply mem_filterTruthy (by decide)
      simp [hpt]
    have hok : tokenAmountOk tx = true := by
      rw [tokenAmountOk_strict tx (List.ne_nil_of_mem hw)
        (List.ne_nil_of_mem hm)]
      exact (Bool.and_eq_true _ _).mpr
        ⟨List.elem_iff.mpr hw, List.elem_iff.mpr hm⟩
    exact ⟨hok, hok⟩

/-- Witness for C5, the spec's Scenario D: token movements
`[{symbol: "WLD", token_amount: "500000000000000000"}]` alone make both
checks true. -/
theorem tokenAmountChecking_witness :
    tokenOk ⟨none, none, none, none, none, none, none, none,
        some [⟨some "WLD", some "500000000000000000"⟩]⟩ = true ∧
    amountOk ⟨none, none, none, none, none, none, none, none,
        some [⟨some "WLD", some "500000000000000000"⟩]⟩ = true :=
  (tokenAmountChecking ⟨none, none, none, none, none, none, none, none,
    some [⟨some "WLD", some "500000000000000000"⟩]⟩).2.2.2.2 [] rfl

/-- Claim **C8** (confirmation does not consume): a successful confirm leaves every
unexpired stored record exactly as it was — in particular `used` stays
false — and repeating the identical confirm against the post-state succeeds
again with the same post-state. Only the generate-image handler flips
`used`. -/
theorem confirmDoesNotConsume (now : Int) (pref cookie : Option String)
    (env : ConfirmEnv) (ledger : Except Nat Tx) (s s' : Store)
    (h : confirmPOST now pref cookie env ledger s = (.ok, s')) :
    confirmPOST now pref cookie env ledger s' = (.ok, s') ∧
    ∀ (x : String) (rec : PaymentReference), lookupRef s x = some rec →
      isExpired now rec = false → lookupRef s' x = some rec := by
  have hs' : s' = cleanupExpiredReferences now s := by
    have h2 := confirmPOST_store now pref cookie env ledger s
    rw [h] at h2
    exact h2
  constructor
  · have h3 := confirmPOST_idem now pref cookie env ledger s
    rw [h] at h3
    exact h3
  · intro x rec hl hfresh
    rw [hs']
    exact lookupRef_cleanup_of_unexpired hl hfresh

/-- Witness for C8: a fully-valid confirm (store admission, matching ledger
record) answers `ok` and leaves the fresh store record in place; running it
again gives the same answer. -/
theorem confirmDoesNotConsume_witness :
    confirmPOST 5 (some "cccccccccccccccccccccccccccccccc") none
        ⟨some "0xAB", some "app", some "key"⟩
        (.ok ⟨some "cccccccccccccccccccccccccccccccc", some "mined",
          some "0xab", none, none, none, none, none, none⟩)
        [("cccccccccccccccccccccccccccccccc",
          ⟨"cccccccccccccccccccccccccccccccc", 0, false⟩)] =
      (.ok, [("cccccccccccccccccccccccccccccccc",
        ⟨"cccccccccccccccccccccccccccccccc", 0, false⟩)]) ∧
    ∀ (x : String) (rec : PaymentReference),
      lookupRef [("cccccccccccccccccccccccccccccccc",
        ⟨"cccccccccccccccccccccccccccccccc", 0, false⟩)] x = some rec →
      isExpired 5 rec = false →
      lookupRef [("cccccccccccccccccccccccccccccccc",
        ⟨"cccccccccccccccccccccccccccccccc", 0, false⟩)] x = some rec :=
  confirmDoesNotConsume 5 (some "cccccccccccccccccccccccccccccccc") none
    ⟨some "0xAB", some "app", some "key"⟩
    (.ok ⟨some "cccccccccccccccccccccccccccccccc", some "mined",
      some "0xab", none, none, none, none, none, none⟩)
    [("cccccccccccccccccccccccccccccccc",
      ⟨"cccccccccccccccccccccccccccccccc", 0, false⟩)]
    [("cccccccccccccccccccccccccccccccc",
      ⟨"cccccccccccccccccccccccccccccccc", 0, false⟩)]
    (by decide)

end Travel
